import Mathlib

set_option linter.unusedVariables false

/-!
Verification development for the mephisto_quant backtesting core.

Shallow embedding conventions:
- Python `float` money/price values are modelled as `ℚ` (exact rational
  arithmetic standing in for real-number intent of the formulas).
- Python `int` quantities are modelled as `ℤ`; Python `//` is `Int.fdiv`
  (floor division) and Python `%` is `Int.emod` (`%` on `ℤ`), which agree
  with Python's semantics.
- Python `dict` objects that are only read/written by key are modelled as
  total functions with the `.get(k, default)` default built in; dicts that
  are also iterated or deleted from are modelled as association lists.
- Logging / printing / CSV side effects are dropped; the state transition
  is kept exactly.
-/

namespace MQ

/-- Association-list lookup, modelling `dict` key access
(`k in d` / `d[k]`). -/
def lookupA {α : Type} : List (String × α) → String → Option α
  | [], _ => none
  | (k2, v) :: t, k => if k2 = k then some v else lookupA t k

/-- Association-list lookup with default, modelling `d.get(k, dflt)`. -/
def lookupD {α : Type} (l : List (String × α)) (k : String) (dflt : α) : α :=
  (lookupA l k).getD dflt

/-- Association-list update, modelling `d[k] = v` (replace in place;
new keys are appended, matching Python dict insertion order). -/
def insertA {α : Type} : List (String × α) → String → α → List (String × α)
  | [], k, v => [(k, v)]
  | (k2, v2) :: t, k, v =>
      if k2 = k then (k2, v) :: t else (k2, v2) :: insertA t k v

/-- Association-list removal, modelling `del d[k]`. -/
def eraseA {α : Type} : List (String × α) → String → List (String × α)
  | [], _ => []
  | (k2, v2) :: t, k => if k2 = k then t else (k2, v2) :: eraseA t k

/-! ## src/core/backtesting/account.py — `Position` -/

/-- `Position` from `src/core/backtesting/account.py`. The `code` string is
carried as the key of the enclosing account map and omitted from the record. -/
structure Position where
  total_volume : ℤ
  available_volume : ℤ
  avg_cost : ℚ
  frozen_volume : ℤ
deriving DecidableEq, Repr

/-- `Position(code, initial_volume, initial_price)`: the constructor sets
both volume counters to `initial_volume`. -/
def Position.init (initial_volume : ℤ) (initial_price : ℚ) : Position :=
  { total_volume := initial_volume, available_volume := initial_volume,
    avg_cost := initial_price, frozen_volume := 0 }

/-- `Position(code)` with the default arguments
(`initial_volume=0, initial_price=0.0`). -/
def Position.fresh : Position := Position.init 0 0

/-- `Position.on_buy(volume, price)`: lot-align the volume down to a multiple
of 100, then fold it into the volume-weighted average cost;
`available_volume` is untouched (T+1). -/
def Position.on_buy (p : Position) (volume : ℤ) (price : ℚ) : Position :=
  if volume ≤ 0 then p
  else
    let volume := (Int.fdiv volume 100) * 100
    if volume ≤ 0 then p
    else
      let total_cost : ℚ := (p.total_volume : ℚ) * p.avg_cost + (volume : ℚ) * price
      let tv := p.total_volume + volume
      { p with total_volume := tv, avg_cost := total_cost / (tv : ℚ) }

/-- `Position.on_sell(volume, price)`: clamp the volume to
`available_volume`, decrement both volume counters, and reset the average
cost when the total reaches 0. The `price` argument is unused by the source
as well. -/
def Position.on_sell (p : Position) (volume : ℤ) (price : ℚ) : Position :=
  if volume ≤ 0 then p
  else
    let v := if volume > p.available_volume then p.available_volume else volume
    let tv := p.total_volume - v
    { p with
        total_volume := tv
        available_volume := p.available_volume - v
        avg_cost := if tv = 0 then 0 else p.avg_cost }

/-- `Position.settle()`: end-of-day T+1 unlock. -/
def Position.settle (p : Position) : Position :=
  { p with available_volume := p.total_volume }

/-- The lot-aligned quantity actually executed by `Position.on_buy`. -/
def execQty (volume : ℤ) : ℤ :=
  if volume ≤ 0 then 0 else (Int.fdiv volume 100) * 100

/-! ## src/core/backtesting/account.py — `Account` -/

/-- `Account` from `src/core/backtesting/account.py`. -/
structure Account where
  cash : ℚ
  initial_cash : ℚ
  positions : List (String × Position)
  commission_rate : ℚ
  total_value : ℚ
deriving DecidableEq, Repr

/-- `Account.get_position(code)`: lazily create a fresh position. Returns
the (possibly extended) map together with the looked-up position. -/
def Account.get_position (a : Account) (code : String) : Account × Position :=
  match lookupA a.positions code with
  | some p => (a, p)
  | none =>
      ({ a with positions := insertA a.positions code Position.fresh }, Position.fresh)

/-- `Account.buy(code, price, volume)`: validation, commission, position
update, cash update. Returns the success flag and the new account. -/
def Account.buy (a : Account) (code : String) (price : ℚ) (volume : ℤ) :
    Bool × Account :=
  if volume ≤ 0 then (false, a)
  else
    let cost := price * (volume : ℚ)
    let commission := cost * a.commission_rate
    let total_cost := cost + commission
    if a.cash < total_cost then (false, a)
    else
      let (a1, pos) := a.get_position code
      let pos' := pos.on_buy volume price
      (true, { a1 with
                positions := insertA a1.positions code pos'
                cash := a1.cash - total_cost })

/-- `Account.sell(code, price, volume)`: validation, commission, position
update, cash update; deletes the map entry when the position's
`total_volume` hits 0. -/
def Account.sell (a : Account) (code : String) (price : ℚ) (volume : ℤ) :
    Bool × Account :=
  if volume ≤ 0 then (false, a)
  else
    match lookupA a.positions code with
    | none => (false, a)
    | some pos =>
        if pos.available_volume < volume then (false, a)
        else
          let revenue := price * (volume : ℚ)
          let commission := revenue * a.commission_rate
          let net_revenue := revenue - commission
          let pos' := pos.on_sell volume price
          let a1 := { a with
                        positions := insertA a.positions code pos'
                        cash := a.cash + net_revenue }
          if pos'.total_volume = 0 then
            (true, { a1 with positions := eraseA a1.positions code })
          else
            (true, a1)

/-- `Account.settle()`: settle every held position. -/
def Account.settle (a : Account) : Account :=
  { a with positions := a.positions.map (fun kv => (kv.1, kv.2.settle)) }

/-! ## src/core/engine/event.py — the event fields the core logic reads -/

/-- `OrderDirection` from `src/core/engine/event.py`. -/
inductive OrderDirection where
  | buy
  | sell
deriving DecidableEq, Repr

/-- `OrderEvent`: symbol, quantity, direction. The `order_type` field is
always `MARKET` in the core and the `type` tag is always `ORDER` for a
value of this type, so both are omitted. -/
structure OrderEvent where
  symbol : String
  quantity : ℤ
  direction : OrderDirection
deriving DecidableEq, Repr

/-- `FillEvent`: symbol, quantity, direction, per-share fill price
(`fill_cost`), total transaction cost (`commission`). The `datetime`
string does not enter any computation and is omitted. -/
structure FillEvent where
  symbol : String
  quantity : ℤ
  direction : OrderDirection
  fill_cost : ℚ
  commission : ℚ
deriving DecidableEq, Repr

/-! ## src/core/portfolio/position.py — `Portfolio` / `NaivePortfolio` -/

/-- The mutable state of `Portfolio` / `NaivePortfolio` from
`src/core/portfolio/position.py`. `current_positions` is an association
list because `validate_buy` iterates it; `pending_sells`, `latest_prices`
and `position_costs` are only keyed reads/writes with default 0, so they
are total functions; `high_water_marks` supports `.pop`, so it maps to
`Option ℚ`. The risk parameters set in `NaivePortfolio.__init__` are
fields so that a state carries its configuration. The holdings/trade
history lists and the event queue are dropped: no claim reads them. -/
structure PortfolioState where
  current_cash : ℚ
  locked_cash : ℚ
  current_positions : List (String × ℤ)
  pending_sells : String → ℤ
  latest_prices : String → ℚ
  position_costs : String → ℚ
  high_water_marks : String → Option ℚ
  max_single_pos_pct : ℚ
  allow_short : Bool
  stop_loss_pct : ℚ
  take_profit_pct : ℚ
  trailing_stop_pct : ℚ

/-- `Portfolio.get_available_cash()`. -/
def PortfolioState.get_available_cash (st : PortfolioState) : ℚ :=
  st.current_cash - st.locked_cash

/-- `Portfolio.get_available_position(symbol)`. -/
def PortfolioState.get_available_position (st : PortfolioState) (symbol : String) : ℤ :=
  lookupD st.current_positions symbol 0 - st.pending_sells symbol

/-- Total assets as computed inside `Portfolio.validate_buy`:
`current_cash + Σ current_positions[s] * latest_prices.get(s, 0)`. -/
def PortfolioState.total_assets (st : PortfolioState) : ℚ :=
  st.current_cash +
    (st.current_positions.map (fun kv => (kv.2 : ℚ) * st.latest_prices kv.1)).sum

/-- `Portfolio.validate_buy(symbol, price, quantity)`. -/
def PortfolioState.validate_buy (st : PortfolioState) (symbol : String)
    (price : ℚ) (quantity : ℤ) : Bool :=
  if price ≤ 0 then false
  else if quantity ≤ 0 then false
  else
    let estimated_cost := price * (quantity : ℚ)
    if st.get_available_cash < estimated_cost then false
    else
      let total := st.total_assets
      let current_pos_val := ((lookupD st.current_positions symbol 0 : ℤ) : ℚ) * price
      let target_pos_val := current_pos_val + estimated_cost
      let max_allowed_val := total * st.max_single_pos_pct
      if 0 < total ∧ max_allowed_val < target_pos_val then false
      else true

/-- `Portfolio.validate_sell(symbol, quantity)`. -/
def PortfolioState.validate_sell (st : PortfolioState) (symbol : String)
    (quantity : ℤ) : Bool :=
  if quantity ≤ 0 then false
  else if !st.allow_short ∧ st.get_available_position symbol < quantity then false
  else true

/-- `Portfolio.create_order(symbol, direction, quantity, price_snapshot)`:
validate, then reserve `quantity*price_snapshot` of cash (buy) or
`quantity` of pending sell shares (sell) before publishing the order.
Returns the success flag and the updated state; the published
`OrderEvent` itself carries no state and is not tracked. -/
def PortfolioState.create_order (st : PortfolioState) (symbol : String)
    (direction : OrderDirection) (quantity : ℤ) (price_snapshot : ℚ) :
    Bool × PortfolioState :=
  match direction with
  | OrderDirection.buy =>
      if st.validate_buy symbol price_snapshot quantity then
        (true, { st with locked_cash := st.locked_cash + (quantity : ℚ) * price_snapshot })
      else (false, st)
  | OrderDirection.sell =>
      if st.validate_sell symbol quantity then
        let current_pending := st.pending_sells symbol
        (true, { st with pending_sells :=
                  fun s => if s = symbol then current_pending + quantity
                           else st.pending_sells s })
      else (false, st)

/-- Which of the three risk-exit rules of
`NaivePortfolio._check_risk_exit` fired, if any. -/
inductive ExitRule where
  | stopLoss
  | trailingStop
  | takeProfit
deriving DecidableEq, Repr

/-- The unrealized return computed by `NaivePortfolio._check_risk_exit`. -/
def riskReturns (pos : ℤ) (avg_cost current_price : ℚ) : ℚ :=
  if 0 < pos then (current_price - avg_cost) / avg_cost
  else (avg_cost - current_price) / avg_cost

/-- `NaivePortfolio._check_risk_exit(symbol, current_price)` as a decision
function: which rule generates the Exit signal. `none` means no exit order
is generated. The sequential `if`/`return` chain of the source becomes
nested `if`s, preserving the short-circuit order exactly. -/
def check_risk_exit (st : PortfolioState) (symbol : String)
    (current_price : ℚ) : Option ExitRule :=
  let pos := lookupD st.current_positions symbol 0
  if pos = 0 then none
  else
    let avg_cost := st.position_costs symbol
    if avg_cost = 0 then none
    else
      let returns := riskReturns pos avg_cost current_price
      if returns ≤ -st.stop_loss_pct then some ExitRule.stopLoss
      else
        let high_mark := (st.high_water_marks symbol).getD avg_cost
        if 0 < high_mark ∧ st.trailing_stop_pct ≤ (high_mark - current_price) / high_mark
             ∧ 0 < returns then
          some ExitRule.trailingStop
        else if st.take_profit_pct < 10 ∧ st.take_profit_pct ≤ returns then
          some ExitRule.takeProfit
        else none

/-- `NaivePortfolio.update_fill(event)`: release the reservation made by
`create_order`, move cash, and update position / average cost /
high-water-mark state. Trade-record logging and the CSV dump are pure
side effects and dropped. -/
def update_fill (st : PortfolioState) (event : FillEvent) : PortfolioState :=
  let curr_pos := lookupD st.current_positions event.symbol 0
  let curr_cost := st.position_costs event.symbol
  match event.direction with
  | OrderDirection.buy =>
      let fill_cost : ℚ := (event.quantity : ℚ) * event.fill_cost
      let total_cost := fill_cost + event.commission
      let estimated_locked := fill_cost
      let locked' := if estimated_locked ≤ st.locked_cash
                     then st.locked_cash - estimated_locked else 0
      let new_pos := curr_pos + event.quantity
      let costs' :=
        if 0 < new_pos ∧ 0 ≤ curr_pos then
          fun s => if s = event.symbol
                   then ((curr_pos : ℚ) * curr_cost + fill_cost) / (new_pos : ℚ)
                   else st.position_costs s
        else st.position_costs
      let hwm' :=
        if 0 < new_pos ∧ 0 ≤ curr_pos then
          if curr_pos = 0 then
            fun s => if s = event.symbol then some event.fill_cost
                     else st.high_water_marks s
          else
            fun s => if s = event.symbol
                     then some (max ((st.high_water_marks event.symbol).getD 0)
                                    event.fill_cost)
                     else st.high_water_marks s
        else st.high_water_marks
      { st with
          locked_cash := locked'
          current_cash := st.current_cash - total_cost
          position_costs := costs'
          high_water_marks := hwm'
          current_positions := insertA st.current_positions event.symbol new_pos }
  | OrderDirection.sell =>
      let fill_cost : ℚ := (event.quantity : ℚ) * event.fill_cost
      let pending := st.pending_sells event.symbol
      let pending' := if event.quantity ≤ pending then pending - event.quantity else 0
      let new_pos0 := curr_pos - event.quantity
      let new_pos := if new_pos0 < 0 then 0 else new_pos0
      let costs' :=
        if new_pos = 0 then
          fun s => if s = event.symbol then 0 else st.position_costs s
        else st.position_costs
      let hwm' :=
        if new_pos = 0 then
          fun s => if s = event.symbol then none else st.high_water_marks s
        else st.high_water_marks
      { st with
          current_cash := st.current_cash + (fill_cost - event.commission)
          pending_sells := fun s => if s = event.symbol then pending'
                                    else st.pending_sells s
          position_costs := costs'
          high_water_marks := hwm'
          current_positions := insertA st.current_positions event.symbol new_pos }

/-! ## src/core/engine/execution.py — execution handlers

`latest_prices` of a handler is modelled as a total function
`String → ℚ` carrying the `.get(symbol, 0.0)` default; `execute_order`
returns the `FillEvent` put on the queue, or `none` when the handler
emits nothing. The `event.type == EventType.ORDER` guard is always true
for an `OrderEvent` value and disappears. -/

/-- Fee configuration of `ChinaStockExecutionHandler.__init__`. -/
def commission_rate_cn : ℚ := 3 / 10000

/-- Minimum commission (5 CNY). -/
def min_commission_cn : ℚ := 5

/-- Sell-side stamp duty rate. -/
def stamp_duty_rate_cn : ℚ := 5 / 10000

/-- Two-way transfer fee rate. -/
def transfer_fee_rate_cn : ℚ := 1 / 100000

/-- `ChinaStockExecutionHandler.execute_order(event)`: reject non-lot buy
quantities, reject missing prices, otherwise fill at the cached price with
commission + sell-side stamp duty + transfer fee as the total cost. -/
def chinaExecuteOrder (latest_prices : String → ℚ)
    (event : OrderEvent) : Option FillEvent :=
  if event.direction = OrderDirection.buy ∧ event.quantity % 100 ≠ 0 then none
  else
    let fill_price := latest_prices event.symbol
    if fill_price = 0 then none
    else
      let trade_value := fill_price * (event.quantity : ℚ)
      let commission := max min_commission_cn (trade_value * commission_rate_cn)
      let stamp_duty := if event.direction = OrderDirection.sell
                        then trade_value * stamp_duty_rate_cn else 0
      let transfer_fee := trade_value * transfer_fee_rate_cn
      let total_transaction_cost := commission + stamp_duty + transfer_fee
      some { symbol := event.symbol
             quantity := event.quantity
             direction := event.direction
             fill_cost := fill_price
             commission := total_transaction_cost }

/-- FX slippage rate of `HongKongStockConnectExecutionHandler.__init__`
(`self.exchange_slippage = 0.002`). -/
def exchange_slippage_hk : ℚ := 2 / 1000

/-- `HongKongStockConnectExecutionHandler.execute_order(event)`:
only 5-character symbols; convert HKD price to CNY at the fixed
`exchange_rate`; costs are FX slippage (on the CNY trade value),
domestic commission (CNY, min 5), HK stamp duty (ceil of the HKD value
at 0.1%, then converted), and regulatory fees (0.0085% of the HKD value,
converted). The fill reports the CNY price and CNY total cost. -/
def hkExecuteOrder (latest_prices : String → ℚ) (exchange_rate : ℚ)
    (event : OrderEvent) : Option FillEvent :=
  if event.symbol.length ≠ 5 then none
  else
    let price_hkd := latest_prices event.symbol
    if price_hkd = 0 then none
    else
      let price_cny := price_hkd * exchange_rate
      let trade_value_cny := price_cny * (event.quantity : ℚ)
      let exchange_cost := trade_value_cny * exchange_slippage_hk
      let commission_cny := max 5 (trade_value_cny * (3 / 10000))
      let stamp_duty_hkd : ℤ := ⌈price_hkd * (event.quantity : ℚ) * (1 / 1000)⌉
      let stamp_duty_cny := (stamp_duty_hkd : ℚ) * exchange_rate
      let reg_fees_hkd := price_hkd * (event.quantity : ℚ) * (85 / 1000000)
      let reg_fees_cny := reg_fees_hkd * exchange_rate
      let total_transaction_cost_cny :=
        commission_cny + stamp_duty_cny + reg_fees_cny + exchange_cost
      some { symbol := event.symbol
             quantity := event.quantity
             direction := event.direction
             fill_cost := price_cny
             commission := total_transaction_cost_cny }

/-! ## Association-list lemmas -/

theorem lookupA_insertA_self {α : Type} (l : List (String × α)) (k : String) (v : α) :
    lookupA (insertA l k v) k = some v := by
  induction l with
  | nil => simp [insertA, lookupA]
  | cons hd t ih =>
      by_cases h : hd.1 = k
      · simp [insertA, lookupA, h]
      · simp [insertA, lookupA, h, ih]

theorem lookupA_insertA_ne {α : Type} (l : List (String × α)) (k k2 : String) (v : α)
    (h : k ≠ k2) : lookupA (insertA l k v) k2 = lookupA l k2 := by
  induction l with
  | nil => simp [insertA, lookupA, h]
  | cons hd t ih =>
      by_cases h1 : hd.1 = k
      · simp [insertA, lookupA, h1, h]
      · simp only [insertA, lookupA, if_neg h1]
        by_cases h2 : hd.1 = k2 <;> simp [lookupA, h2, ih]

theorem lookupA_isSome_insertA {α : Type} (l : List (String × α)) (k k2 : String) (v : α)
    (h : lookupA l k2 ≠ none) : lookupA (insertA l k v) k2 ≠ none := by
  by_cases hk : k = k2
  · subst hk; simp [lookupA_insertA_self]
  · rw [lookupA_insertA_ne l k k2 v hk]; exact h

theorem lookupA_eq_none_of_not_mem {α : Type} (l : List (String × α)) (k : String)
    (h : k ∉ l.map Prod.fst) : lookupA l k = none := by
  induction l with
  | nil => rfl
  | cons hd t ih =>
      simp only [List.map_cons, List.mem_cons, not_or] at h
      have h1 : hd.1 ≠ k := fun hh => h.1 hh.symm
      simp [lookupA, h1, ih h.2]

theorem keys_insertA_of_mem {α : Type} (l : List (String × α)) (k : String) (v : α)
    (h : k ∈ l.map Prod.fst) :
    (insertA l k v).map Prod.fst = l.map Prod.fst := by
  induction l with
  | nil => simp at h
  | cons hd t ih =>
      by_cases h1 : hd.1 = k
      · simp [insertA, h1]
      · simp only [List.map_cons, List.mem_cons] at h
        rcases h with h | h
        · exact absurd h.symm h1
        · simp [insertA, h1, ih h]

theorem lookupA_eraseA_insertA_self {α : Type} (l : List (String × α)) (k : String) (v : α)
    (hnd : (l.map Prod.fst).Nodup) :
    lookupA (eraseA (insertA l k v) k) k = none := by
  induction l with
  | nil => simp [insertA, eraseA, lookupA]
  | cons hd t ih =>
      simp only [List.map_cons, List.nodup_cons] at hnd
      by_cases h1 : hd.1 = k
      · simp only [insertA, if_pos h1, eraseA, if_pos h1]
        exact lookupA_eq_none_of_not_mem t k (h1 ▸ hnd.1)
      · simp only [insertA, if_neg h1, eraseA, if_neg h1, lookupA, if_neg h1]
        exact ih hnd.2

theorem lookupA_map_value {α β : Type} (l : List (String × α)) (f : α → β) (k : String) :
    lookupA (l.map (fun kv => (kv.1, f kv.2))) k = (lookupA l k).map f := by
  induction l with
  | nil => rfl
  | cons hd t ih =>
      by_cases h : hd.1 = k <;> simp [lookupA, h, ih]

/-! ## Position helper lemmas -/

theorem execQty_nonneg (volume : ℤ) : 0 ≤ execQty volume := by
  unfold execQty
  split_ifs with h
  · exact le_refl 0
  · have : 0 ≤ Int.fdiv volume 100 := Int.fdiv_nonneg (by omega) (by norm_num)
    omega

theorem on_buy_eq (p : Position) (volume : ℤ) (price : ℚ) :
    p.on_buy volume price =
      if volume ≤ 0 then p
      else if Int.fdiv volume 100 * 100 ≤ 0 then p
      else
        { p with
            total_volume := p.total_volume + Int.fdiv volume 100 * 100
            avg_cost :=
              ((p.total_volume : ℚ) * p.avg_cost
                  + ((Int.fdiv volume 100 * 100 : ℤ) : ℚ) * price)
                / ((p.total_volume + Int.fdiv volume 100 * 100 : ℤ) : ℚ) } := rfl

theorem on_sell_eq (p : Position) (volume : ℤ) (price : ℚ) :
    p.on_sell volume price =
      if volume ≤ 0 then p
      else
        let v := if p.available_volume < volume then p.available_volume else volume
        { p with
            total_volume := p.total_volume - v
            available_volume := p.available_volume - v
            avg_cost := if p.total_volume - v = 0 then 0 else p.avg_cost } := rfl

theorem on_buy_available (p : Position) (volume : ℤ) (price : ℚ) :
    (p.on_buy volume price).available_volume = p.available_volume := by
  rw [on_buy_eq]
  split_ifs <;> rfl

theorem on_buy_frozen (p : Position) (volume : ℤ) (price : ℚ) :
    (p.on_buy volume price).frozen_volume = p.frozen_volume := by
  rw [on_buy_eq]
  split_ifs <;> rfl

theorem on_buy_total (p : Position) (volume : ℤ) (price : ℚ) :
    (p.on_buy volume price).total_volume = p.total_volume + execQty volume := by
  rw [on_buy_eq]
  unfold execQty
  split_ifs with h1 h2
  · simp
  · have : 0 ≤ Int.fdiv volume 100 := Int.fdiv_nonneg (by omega) (by norm_num)
    simp; omega
  · rfl

theorem on_buy_value (p : Position) (volume : ℤ) (price : ℚ)
    (ht : 0 ≤ p.total_volume) :
    ((p.on_buy volume price).total_volume : ℚ) * (p.on_buy volume price).avg_cost
      = (p.total_volume : ℚ) * p.avg_cost + (execQty volume : ℚ) * price := by
  rw [on_buy_eq]
  unfold execQty
  split_ifs with h1 h2
  · simp
  · have h3 : 0 ≤ Int.fdiv volume 100 := Int.fdiv_nonneg (by omega) (by norm_num)
    have h4 : Int.fdiv volume 100 * 100 = 0 := by omega
    simp [h4]
  · have h7 : ((p.total_volume + Int.fdiv volume 100 * 100 : ℤ) : ℚ) ≠ 0 := by
      have : (0 : ℤ) < p.total_volume + Int.fdiv volume 100 * 100 := by omega
      exact_mod_cast this.ne.symm
    dsimp only
    rw [mul_comm, div_mul_cancel₀ _ h7]

/-! ## Sequences of position operations -/

/-- One operation on a `Position`: a buy fill, a sell fill, or the daily
settlement call. -/
inductive PosOp where
  | buyOp (volume : ℤ) (price : ℚ)
  | sellOp (volume : ℤ) (price : ℚ)
  | settleOp
deriving DecidableEq, Repr

/-- Apply one operation to a position. -/
def applyOp (p : Position) : PosOp → Position
  | PosOp.buyOp v pr => p.on_buy v pr
  | PosOp.sellOp v pr => p.on_sell v pr
  | PosOp.settleOp => p.settle

/-- The volume invariant of a position: the sellable part is a
non-negative subset of the holding. -/
def volInvariant (p : Position) : Prop :=
  0 ≤ p.available_volume ∧ p.available_volume ≤ p.total_volume

theorem applyOp_invariant (p : Position) (op : PosOp) (h : volInvariant p) :
    volInvariant (applyOp p op) := by
  obtain ⟨h1, h2⟩ := h
  cases op with
  | buyOp v pr =>
      have e := execQty_nonneg v
      refine ⟨?_, ?_⟩ <;>
        simp only [applyOp, on_buy_available, on_buy_total]
      · exact h1
      · omega
  | sellOp v pr =>
      unfold volInvariant
      simp only [applyOp, on_sell_eq]
      split_ifs <;> constructor <;> dsimp only <;> omega
  | settleOp =>
      exact ⟨le_trans h1 h2, le_refl _⟩

theorem foldl_applyOp_invariant (ops : List PosOp) (p : Position)
    (h : volInvariant p) : volInvariant (ops.foldl applyOp p) := by
  induction ops generalizing p with
  | nil => exact h
  | cons op t ih => exact ih (applyOp p op) (applyOp_invariant p op h)

/-- Fold a list of `(volume, price)` buy fills into a position. -/
def buyFold (p : Position) (buys : List (ℤ × ℚ)) : Position :=
  buys.foldl (fun q b => q.on_buy b.1 b.2) p

theorem buyFold_spec (buys : List (ℤ × ℚ)) (p : Position)
    (ht : 0 ≤ p.total_volume) :
    (buyFold p buys).available_volume = p.available_volume ∧
    (buyFold p buys).total_volume
      = p.total_volume + (buys.map (fun b => execQty b.1)).sum ∧
    ((buyFold p buys).total_volume : ℚ) * (buyFold p buys).avg_cost
      = (p.total_volume : ℚ) * p.avg_cost
          + (buys.map (fun b => (execQty b.1 : ℚ) * b.2)).sum := by
  induction buys generalizing p with
  | nil => simp [buyFold]
  | cons b t ih =>
      have ht' : 0 ≤ (p.on_buy b.1 b.2).total_volume := by
        rw [on_buy_total]
        have := execQty_nonneg b.1
        omega
      obtain ⟨ih1, ih2, ih3⟩ := ih (p.on_buy b.1 b.2) ht'
      have hfold : buyFold p (b :: t) = buyFold (p.on_buy b.1 b.2) t := rfl
      refine ⟨?_, ?_, ?_⟩
      · rw [hfold, ih1, on_buy_available]
      · rw [hfold, ih2, on_buy_total]
        simp [add_assoc]
      · rw [hfold, ih3, on_buy_value p b.1 b.2 ht]
        simp [add_assoc]

/-! ## Claim theorems -/

/-- C3: a sell applied to a position with positive requested volume (in a
state where the sellable part is a non-negative subset of the holding)
executes exactly `min(requested, available_volume)` shares: both volume
counters drop by that amount, the total never becomes negative, and the
average cost resets to 0 exactly when the total reaches 0. -/
theorem claim3_on_sell_clamped (p : Position) (volume : ℤ) (price : ℚ)
    (hv : 0 < volume) (ha : 0 ≤ p.available_volume)
    (hat : p.available_volume ≤ p.total_volume) :
    (p.on_sell volume price).total_volume
        = p.total_volume - min volume p.available_volume ∧
    (p.on_sell volume price).available_volume
        = p.available_volume - min volume p.available_volume ∧
    0 ≤ (p.on_sell volume price).total_volume ∧
    ((p.on_sell volume price).total_volume = 0 →
        (p.on_sell volume price).avg_cost = 0) := by
  rw [on_sell_eq, if_neg (not_le.mpr hv)]
  dsimp only
  refine ⟨?_, ?_, ?_, ?_⟩
  · split_ifs <;> omega
  · split_ifs <;> omega
  · split_ifs <;> omega
  · intro h
    rw [if_pos h]

/-- C3 witness: selling 2000 against 1000 available executes 1000 and
resets the cost basis. -/
theorem claim3_witness :
    (0 : ℤ) < 2000 ∧
    ((Position.mk 1000 1000 10 0).on_sell 2000 12).total_volume = 0 ∧
    ((Position.mk 1000 1000 10 0).on_sell 2000 12).avg_cost = 0 := by
  have h := claim3_on_sell_clamped (Position.mk 1000 1000 10 0) 2000 12
    (by decide) (by decide) (by decide)
  refine ⟨by decide, ?_, ?_⟩
  · rw [h.1]; decide
  · exact h.2.2.2 (by rw [h.1]; decide)

/-- C9: starting from a freshly constructed position (both counters equal
to a non-negative initial volume), every sequence of buy / sell / settle
operations preserves `0 ≤ available_volume ≤ total_volume`; moreover
`settle` always equates the two counters and `on_buy` never changes the
available counter. -/
theorem claim9_volume_invariant (initial_volume : ℤ) (initial_price : ℚ)
    (ops : List PosOp) (h0 : 0 ≤ initial_volume) :
    volInvariant (ops.foldl applyOp (Position.init initial_volume initial_price)) ∧
    (∀ p : Position, p.settle.available_volume = p.total_volume) ∧
    (∀ (p : Position) (volume : ℤ) (price : ℚ),
        (p.on_buy volume price).available_volume = p.available_volume ∧
        (p.on_buy volume price).total_volume = p.total_volume + execQty volume) := by
  refine ⟨?_, fun p => rfl, fun p volume price =>
    ⟨on_buy_available p volume price, on_buy_total p volume price⟩⟩
  exact foldl_applyOp_invariant ops _ ⟨h0, le_refl _⟩

/-- C9 witness: a concrete operation sequence from the empty position. -/
theorem claim9_witness :
    volInvariant ([PosOp.buyOp 250 10, PosOp.settleOp, PosOp.sellOp 300 9,
        PosOp.buyOp 100 11].foldl applyOp (Position.init 0 0)) :=
  (claim9_volume_invariant 0 0 _ (le_refl 0)).1

/-- C4: each executed buy recomputes the average cost as
`(total*avg + executed*price) / (total + executed)` with the lot-aligned
executed quantity and leaves `available_volume` unchanged; consequently,
over any sequence of buys applied to a fresh position, the average cost
is the volume-weighted mean of the executed prices. -/
theorem claim4_avg_cost_weighted_mean :
    (∀ (p : Position) (volume : ℤ) (price : ℚ),
        0 ≤ p.total_volume → 0 < execQty volume →
        (p.on_buy volume price).avg_cost
            = ((p.total_volume : ℚ) * p.avg_cost + (execQty volume : ℚ) * price)
                / ((p.total_volume + execQty volume : ℤ) : ℚ) ∧
        (p.on_buy volume price).available_volume = p.available_volume) ∧
    (∀ buys : List (ℤ × ℚ),
        (buyFold Position.fresh buys).available_volume = 0 ∧
        (buyFold Position.fresh buys).total_volume
            = (buys.map (fun b => execQty b.1)).sum ∧
        (0 < (buys.map (fun b => execQty b.1)).sum →
          (buyFold Position.fresh buys).avg_cost
              = (buys.map (fun b => (execQty b.1 : ℚ) * b.2)).sum
                  / (((buys.map (fun b => execQty b.1)).sum : ℤ) : ℚ))) := by
  constructor
  · intro p volume price ht he
    have hv : ¬ volume ≤ 0 := by
      intro hc
      simp [execQty, hc] at he
    have hv2 : ¬ Int.fdiv volume 100 * 100 ≤ 0 := by
      intro hc
      simp only [execQty, if_neg hv] at he
      omega
    have hq : execQty volume = Int.fdiv volume 100 * 100 := by
      simp [execQty, hv]
    rw [on_buy_eq, if_neg hv, if_neg hv2, hq]
    exact ⟨rfl, rfl⟩
  · intro buys
    obtain ⟨h1, h2, h3⟩ := buyFold_spec buys Position.fresh (le_refl 0)
    have hz : (Position.fresh.total_volume : ℚ) * Position.fresh.avg_cost = 0 := by
      simp [Position.fresh, Position.init]
    refine ⟨by simpa [Position.fresh, Position.init] using h1,
            by simpa [Position.fresh, Position.init] using h2, ?_⟩
    intro hpos
    have hsum : ((((buys.map (fun b => execQty b.1)).sum : ℤ)) : ℚ) ≠ 0 := by
      exact_mod_cast hpos.ne.symm
    rw [eq_div_iff hsum]
    have h2' : (buyFold Position.fresh buys).total_volume
        = (buys.map (fun b => execQty b.1)).sum := by
      simpa [Position.fresh, Position.init] using h2
    calc (buyFold Position.fresh buys).avg_cost
          * (((buys.map (fun b => execQty b.1)).sum : ℤ) : ℚ)
        = ((buyFold Position.fresh buys).total_volume : ℚ)
            * (buyFold Position.fresh buys).avg_cost := by
          rw [h2', mul_comm]
      _ = (buys.map (fun b => (execQty b.1 : ℚ) * b.2)).sum := by
          rw [h3, hz, zero_add]

/-- C4 witness: 300 shares at 10 then 200 shares at 25 average to 16;
a single buy onto an existing lot follows the recomputation formula. -/
theorem claim4_witness :
    ((Position.mk 100 0 10 0).on_buy 200 25).avg_cost
        = ((100 : ℚ) * 10 + (execQty 200 : ℚ) * 25) / (((100 + execQty 200 : ℤ)) : ℚ) ∧
    (buyFold Position.fresh [(300, 10), (200, 25)]).avg_cost = 16 := by
  constructor
  · exact (claim4_avg_cost_weighted_mean.1 (Position.mk 100 0 10 0) 200 25
      (by decide) (by decide)).1
  · have e1 : execQty 300 = 300 := by decide
    have e2 : execQty 200 = 200 := by decide
    have h := (claim4_avg_cost_weighted_mean.2 [(300, 10), (200, 25)]).2.2
      (by simp [e1, e2])
    rw [h]
    simp only [List.map_cons, List.map_nil, List.sum_cons, List.sum_nil, e1, e2]
    norm_num

theorem chinaExecuteOrder_eq (latest_prices : String → ℚ) (event : OrderEvent) :
    chinaExecuteOrder latest_prices event =
      if event.direction = OrderDirection.buy ∧ event.quantity % 100 ≠ 0 then none
      else if latest_prices event.symbol = 0 then none
      else some { symbol := event.symbol
                  quantity := event.quantity
                  direction := event.direction
                  fill_cost := latest_prices event.symbol
                  commission :=
                    max min_commission_cn
                        (latest_prices event.symbol * (event.quantity : ℚ)
                          * commission_rate_cn)
                      + (if event.direction = OrderDirection.sell
                         then latest_prices event.symbol * (event.quantity : ℚ)
                            * stamp_duty_rate_cn
                         else 0)
                      + latest_prices event.symbol * (event.quantity : ℚ)
                        * transfer_fee_rate_cn } := rfl

theorem hkExecuteOrder_eq (latest_prices : String → ℚ) (exchange_rate : ℚ)
    (event : OrderEvent) :
    hkExecuteOrder latest_prices exchange_rate event =
      if event.symbol.length ≠ 5 then none
      else if latest_prices event.symbol = 0 then none
      else some { symbol := event.symbol
                  quantity := event.quantity
                  direction := event.direction
                  fill_cost := latest_prices event.symbol * exchange_rate
                  commission :=
                    max 5 (latest_prices event.symbol * exchange_rate
                        * (event.quantity : ℚ) * (3 / 10000))
                      + ((⌈latest_prices event.symbol * (event.quantity : ℚ)
                            * (1 / 1000)⌉ : ℤ) : ℚ) * exchange_rate
                      + latest_prices event.symbol * (event.quantity : ℚ)
                        * (85 / 1000000) * exchange_rate
                      + latest_prices event.symbol * exchange_rate
                        * (event.quantity : ℚ) * exchange_slippage_hk } := rfl

/-- C5: the domestic (A-share) handler rejects every buy order whose
quantity is not a multiple of 100 — no fill is produced — while a sell
order with any quantity fills whenever a price is cached. -/
theorem claim5_lot_size_reject (latest_prices : String → ℚ) (event : OrderEvent) :
    (event.direction = OrderDirection.buy → event.quantity % 100 ≠ 0 →
        chinaExecuteOrder latest_prices event = none) ∧
    (event.direction = OrderDirection.sell → latest_prices event.symbol ≠ 0 →
        ∃ fill, chinaExecuteOrder latest_prices event = some fill ∧
          fill.quantity = event.quantity ∧
          fill.fill_cost = latest_prices event.symbol) := by
  constructor
  · intro hd hq
    rw [chinaExecuteOrder_eq, if_pos ⟨hd, hq⟩]
  · intro hd hp
    have hnb : ¬ (event.direction = OrderDirection.buy ∧ event.quantity % 100 ≠ 0) := by
      intro hc
      rw [hd] at hc
      exact OrderDirection.noConfusion hc.1
    rw [chinaExecuteOrder_eq, if_neg hnb, if_neg hp]
    exact ⟨_, rfl, rfl, rfl⟩

/-- C5 witness: a buy of 150 shares is rejected; a sell of 150 shares is
filled at the cached price. -/
theorem claim5_witness :
    chinaExecuteOrder (fun s => if s = "600000" then (10 : ℚ) else 0)
        { symbol := "600000", quantity := 150, direction := OrderDirection.buy } = none ∧
    ∃ fill, chinaExecuteOrder (fun s => if s = "600000" then (10 : ℚ) else 0)
        { symbol := "600000", quantity := 150, direction := OrderDirection.sell }
          = some fill ∧
      fill.quantity = 150 ∧
      fill.fill_cost = (fun s => if s = "600000" then (10 : ℚ) else 0) "600000" := by
  constructor
  · exact (claim5_lot_size_reject (fun s => if s = "600000" then (10 : ℚ) else 0)
      { symbol := "600000", quantity := 150, direction := OrderDirection.buy }).1
      rfl (by decide)
  · exact (claim5_lot_size_reject (fun s => if s = "600000" then (10 : ℚ) else 0)
      { symbol := "600000", quantity := 150, direction := OrderDirection.sell }).2
      rfl (by norm_num)

/-- C6: when the last-seen price lookup for the order's symbol yields 0,
neither the domestic handler nor the cross-border handler produces a fill. -/
theorem claim6_missing_price_no_fill (latest_prices : String → ℚ)
    (exchange_rate : ℚ) (event : OrderEvent)
    (h : latest_prices event.symbol = 0) :
    chinaExecuteOrder latest_prices event = none ∧
    hkExecuteOrder latest_prices exchange_rate event = none := by
  constructor
  · rw [chinaExecuteOrder_eq]
    split_ifs <;> rfl
  · rw [hkExecuteOrder_eq]
    split_ifs <;> rfl

/-- C6 witness: an order for a symbol with no cached price produces no
fill from either handler. -/
theorem claim6_witness :
    chinaExecuteOrder (fun _ => 0)
        { symbol := "600000", quantity := 100, direction := OrderDirection.buy } = none ∧
    hkExecuteOrder (fun _ => 0) (92 / 100)
        { symbol := "00700", quantity := 100, direction := OrderDirection.buy } = none :=
  ⟨(claim6_missing_price_no_fill (fun _ => 0) (92 / 100)
      { symbol := "600000", quantity := 100, direction := OrderDirection.buy } rfl).1,
   (claim6_missing_price_no_fill (fun _ => 0) (92 / 100)
      { symbol := "00700", quantity := 100, direction := OrderDirection.buy } rfl).2⟩

/-- The fill prescribed by the specification's cross-border cost rule,
written from the spec's words for comparison with the handler: the
stamp-style tax is computed on the original-currency (HKD) trade value,
rounded up to the next whole HKD with a ceiling, and only then converted
at the fixed exchange rate; the FX slippage is a separate cost
proportional to the converted trade value; the reported price is the
plain converted price, unadjusted by slippage. -/
def hkSpecFill (price_hkd exchange_rate : ℚ) (event : OrderEvent) : FillEvent :=
  let converted_value := price_hkd * exchange_rate * (event.quantity : ℚ)
  let original_value := price_hkd * (event.quantity : ℚ)
  { symbol := event.symbol
    quantity := event.quantity
    direction := event.direction
    fill_cost := price_hkd * exchange_rate
    commission :=
      max 5 (converted_value * (3 / 10000))
        + ((⌈original_value * (1 / 1000)⌉ : ℤ) : ℚ) * exchange_rate
        + original_value * (85 / 1000000) * exchange_rate
        + converted_value * exchange_slippage_hk }

/-- C7: for every order the cross-border handler actually executes, the
emitted fill is exactly the spec-prescribed fill: ceiling tax in HKD then
FX conversion, FX slippage as a separate converted-value-proportional
cost, and base-currency price and total cost. -/
theorem claim7_hk_fee_formula (latest_prices : String → ℚ)
    (exchange_rate : ℚ) (event : OrderEvent)
    (h5 : event.symbol.length = 5)
    (hp : latest_prices event.symbol ≠ 0) :
    hkExecuteOrder latest_prices exchange_rate event
      = some (hkSpecFill (latest_prices event.symbol) exchange_rate event) := by
  rw [hkExecuteOrder_eq, if_neg (by rw [h5]; exact fun hc => hc rfl), if_neg hp]
  rfl

/-- C7 witness: a concrete cross-border order at HKD price 100,
exchange rate 0.92. -/
theorem claim7_witness :
    hkExecuteOrder (fun s => if s = "00700" then (100 : ℚ) else 0) (92 / 100)
        { symbol := "00700", quantity := 500, direction := OrderDirection.buy }
      = some (hkSpecFill ((fun s => if s = "00700" then (100 : ℚ) else 0) "00700")
          (92 / 100)
          { symbol := "00700", quantity := 500, direction := OrderDirection.buy }) :=
  claim7_hk_fee_formula (fun s => if s = "00700" then (100 : ℚ) else 0) (92 / 100)
    { symbol := "00700", quantity := 500, direction := OrderDirection.buy }
    rfl (by norm_num)

/-! ## Portfolio shape lemmas -/

theorem create_order_buy_eq (st : PortfolioState) (symbol : String)
    (quantity : ℤ) (price_snapshot : ℚ) :
    st.create_order symbol OrderDirection.buy quantity price_snapshot =
      if st.validate_buy symbol price_snapshot quantity
      then (true, { st with
              locked_cash := st.locked_cash + (quantity : ℚ) * price_snapshot })
      else (false, st) := rfl

theorem create_order_sell_eq (st : PortfolioState) (symbol : String)
    (quantity : ℤ) (price_snapshot : ℚ) :
    st.create_order symbol OrderDirection.sell quantity price_snapshot =
      if st.validate_sell symbol quantity
      then (true, { st with
              pending_sells := fun s =>
                if s = symbol then st.pending_sells symbol + quantity
                else st.pending_sells s })
      else (false, st) := rfl

theorem update_fill_buy_locked (st : PortfolioState) (fs : String) (fq : ℤ)
    (fc fcm : ℚ) :
    (update_fill st
        (FillEvent.mk fs fq OrderDirection.buy fc fcm)).locked_cash
      = if (fq : ℚ) * fc ≤ st.locked_cash
        then st.locked_cash - (fq : ℚ) * fc else 0 := rfl

theorem update_fill_buy_pending (st : PortfolioState) (fs : String) (fq : ℤ)
    (fc fcm : ℚ) :
    (update_fill st
        (FillEvent.mk fs fq OrderDirection.buy fc fcm)).pending_sells
      = st.pending_sells := rfl

theorem update_fill_sell_locked (st : PortfolioState) (fs : String) (fq : ℤ)
    (fc fcm : ℚ) :
    (update_fill st
        (FillEvent.mk fs fq OrderDirection.sell fc fcm)).locked_cash
      = st.locked_cash := rfl

theorem update_fill_sell_pending (st : PortfolioState) (fs : String) (fq : ℤ)
    (fc fcm : ℚ) :
    (update_fill st
        (FillEvent.mk fs fq OrderDirection.sell fc fcm)).pending_sells
      = fun s =>
          if s = fs
          then (if fq ≤ st.pending_sells fs then st.pending_sells fs - fq else 0)
          else st.pending_sells s := rfl

/-- C1: an accepted buy order locks `quantity * price_snapshot` of cash and
the matching fill (same symbol and quantity, filled at the snapshot price)
releases exactly that amount, restoring `locked_cash`; an accepted sell
order reserves `quantity` pending-sell shares and the matching fill
releases exactly that quantity, restoring `pending_sells[symbol]`; in each
case the other reservation counter of the pair is untouched. -/
theorem claim1_reservation_round_trip (st : PortfolioState) (symbol : String)
    (quantity : ℤ) (price_snapshot : ℚ) (fill : FillEvent)
    (hl : 0 ≤ st.locked_cash) (hp : 0 ≤ st.pending_sells symbol)
    (hs : fill.symbol = symbol) (hq : fill.quantity = quantity)
    (hc : fill.fill_cost = price_snapshot) :
    ((st.create_order symbol OrderDirection.buy quantity price_snapshot).1 = true →
      fill.direction = OrderDirection.buy →
      (st.create_order symbol OrderDirection.buy quantity price_snapshot).2.locked_cash
          = st.locked_cash + (quantity : ℚ) * price_snapshot ∧
      (update_fill (st.create_order symbol OrderDirection.buy quantity
          price_snapshot).2 fill).locked_cash = st.locked_cash ∧
      (update_fill (st.create_order symbol OrderDirection.buy quantity
          price_snapshot).2 fill).pending_sells symbol
        = st.pending_sells symbol) ∧
    ((st.create_order symbol OrderDirection.sell quantity price_snapshot).1 = true →
      fill.direction = OrderDirection.sell →
      (st.create_order symbol OrderDirection.sell quantity
          price_snapshot).2.pending_sells symbol
        = st.pending_sells symbol + quantity ∧
      (update_fill (st.create_order symbol OrderDirection.sell quantity
          price_snapshot).2 fill).pending_sells symbol
        = st.pending_sells symbol ∧
      (update_fill (st.create_order symbol OrderDirection.sell quantity
          price_snapshot).2 fill).locked_cash
        = (st.create_order symbol OrderDirection.sell quantity
            price_snapshot).2.locked_cash) := by
  obtain ⟨fs, fq, fd, fc, fcm⟩ := fill
  dsimp only at hs hq hc
  subst hs
  subst hq
  subst hc
  constructor
  · intro hacc hdir
    dsimp only at hdir
    subst hdir
    rw [create_order_buy_eq] at hacc ⊢
    split_ifs at hacc ⊢ with hval
    · refine ⟨rfl, ?_, rfl⟩
      dsimp only
      rw [update_fill_buy_locked]
      dsimp only
      rw [if_pos (by linarith)]
      ring
  · intro hacc hdir
    dsimp only at hdir
    subst hdir
    rw [create_order_sell_eq] at hacc ⊢
    split_ifs at hacc ⊢ with hval
    · refine ⟨by simp, ?_, rfl⟩
      dsimp only
      rw [update_fill_sell_pending]
      simp only [eq_self_iff_true, if_true]
      rw [if_pos (by omega)]
      omega

/-- A concrete portfolio state used by the witnesses: one symbol held,
usual NaivePortfolio risk parameters. -/
def riskDemoState : PortfolioState :=
  { current_cash := 90000
    locked_cash := 0
    current_positions := [("600000", 1000)]
    pending_sells := fun _ => 0
    latest_prices := fun _ => 0
    position_costs := fun s => if s = "600000" then 10 else 0
    high_water_marks := fun _ => none
    max_single_pos_pct := 1
    allow_short := false
    stop_loss_pct := 1 / 10
    take_profit_pct := 3 / 10
    trailing_stop_pct := 15 / 100 }

/-- C1 witness: a concrete accepted buy and a concrete accepted sell each
leave their reservation counter exactly where it started. -/
theorem claim1_witness :
    ((update_fill (riskDemoState.create_order "600000" OrderDirection.buy 100 10).2
        { symbol := "600000", quantity := 100, direction := OrderDirection.buy,
          fill_cost := 10, commission := 5 }).locked_cash
      = riskDemoState.locked_cash) ∧
    ((update_fill (riskDemoState.create_order "600000" OrderDirection.sell 100 0).2
        { symbol := "600000", quantity := 100, direction := OrderDirection.sell,
          fill_cost := 0, commission := 5 }).pending_sells "600000"
      = riskDemoState.pending_sells "600000") := by
  have hvb : riskDemoState.validate_buy "600000" 10 100 = true := by
    norm_num [PortfolioState.validate_buy, PortfolioState.get_available_cash,
      PortfolioState.total_assets, riskDemoState, lookupD, lookupA]
  have hvs : riskDemoState.validate_sell "600000" 100 = true := by
    norm_num [PortfolioState.validate_sell, PortfolioState.get_available_position,
      riskDemoState, lookupD, lookupA]
  constructor
  · have h := (claim1_reservation_round_trip riskDemoState "600000" 100 10
      (FillEvent.mk "600000" 100 OrderDirection.buy 10 5)
      (le_refl 0) (le_refl 0) rfl rfl rfl).1
      (by rw [create_order_buy_eq, if_pos hvb]) rfl
    exact h.2.1
  · have h := (claim1_reservation_round_trip riskDemoState "600000" 100 0
      (FillEvent.mk "600000" 100 OrderDirection.sell 0 5)
      (le_refl 0) (le_refl 0) rfl rfl rfl).2
      (by rw [create_order_sell_eq, if_pos hvs]) rfl
    exact h.2.1

theorem check_risk_exit_eq (st : PortfolioState) (symbol : String)
    (current_price : ℚ) :
    check_risk_exit st symbol current_price =
      if lookupD st.current_positions symbol 0 = 0 then none
      else if st.position_costs symbol = 0 then none
      else if riskReturns (lookupD st.current_positions symbol 0)
            (st.position_costs symbol) current_price ≤ -st.stop_loss_pct then
        some ExitRule.stopLoss
      else if 0 < (st.high_water_marks symbol).getD (st.position_costs symbol) ∧
            st.trailing_stop_pct
              ≤ ((st.high_water_marks symbol).getD (st.position_costs symbol)
                    - current_price)
                  / (st.high_water_marks symbol).getD (st.position_costs symbol) ∧
            0 < riskReturns (lookupD st.current_positions symbol 0)
                  (st.position_costs symbol) current_price then
        some ExitRule.trailingStop
      else if st.take_profit_pct < 10 ∧
            st.take_profit_pct
              ≤ riskReturns (lookupD st.current_positions symbol 0)
                  (st.position_costs symbol) current_price then
        some ExitRule.takeProfit
      else none := rfl

/-- C2: the risk-exit rules are checked in the fixed order stop-loss,
trailing stop, take-profit. Whenever a position with recorded cost is held
and the unrealized return is at or below `-stop_loss_pct`, the stop-loss
rule fires — no later rule is reached; the trailing stop fires only when
the drawdown from the high-water mark reaches the threshold, the return is
strictly positive, and the stop-loss did not fire; the take-profit fires
only when neither earlier rule fired. -/
theorem claim2_risk_exit_priority (st : PortfolioState) (symbol : String)
    (current_price : ℚ) :
    (lookupD st.current_positions symbol 0 ≠ 0 →
      st.position_costs symbol ≠ 0 →
      riskReturns (lookupD st.current_positions symbol 0)
          (st.position_costs symbol) current_price ≤ -st.stop_loss_pct →
      check_risk_exit st symbol current_price = some ExitRule.stopLoss) ∧
    (check_risk_exit st symbol current_price = some ExitRule.trailingStop →
      0 < (st.high_water_marks symbol).getD (st.position_costs symbol) ∧
      st.trailing_stop_pct
          ≤ ((st.high_water_marks symbol).getD (st.position_costs symbol)
                - current_price)
              / (st.high_water_marks symbol).getD (st.position_costs symbol) ∧
      0 < riskReturns (lookupD st.current_positions symbol 0)
            (st.position_costs symbol) current_price ∧
      ¬ riskReturns (lookupD st.current_positions symbol 0)
            (st.position_costs symbol) current_price ≤ -st.stop_loss_pct) ∧
    (check_risk_exit st symbol current_price = some ExitRule.takeProfit →
      ¬ riskReturns (lookupD st.current_positions symbol 0)
            (st.position_costs symbol) current_price ≤ -st.stop_loss_pct ∧
      ¬ (0 < (st.high_water_marks symbol).getD (st.position_costs symbol) ∧
          st.trailing_stop_pct
              ≤ ((st.high_water_marks symbol).getD (st.position_costs symbol)
                    - current_price)
                  / (st.high_water_marks symbol).getD (st.position_costs symbol) ∧
          0 < riskReturns (lookupD st.current_positions symbol 0)
                (st.position_costs symbol) current_price) ∧
      st.take_profit_pct
          ≤ riskReturns (lookupD st.current_positions symbol 0)
              (st.position_costs symbol) current_price) := by
  refine ⟨?_, ?_, ?_⟩
  · intro hpos havg hret
    rw [check_risk_exit_eq, if_neg hpos, if_neg havg, if_pos hret]
  · intro hres
    rw [check_risk_exit_eq] at hres
    split_ifs at hres with h1 h2 h3 h4 h5
    · exact absurd hres (by simp)
    · exact ⟨h4.1, h4.2.1, h4.2.2, h3⟩
    · exact absurd hres (by simp)
  · intro hres
    rw [check_risk_exit_eq] at hres
    split_ifs at hres with h1 h2 h3 h4 h5
    · exact absurd hres (by simp)
    · exact absurd hres (by simp)
    · exact ⟨h3, h4, h5.2⟩

/-- C2 witness: a 15% loss against a 10% stop-loss threshold triggers the
stop-loss rule (and not a later rule). -/
theorem claim2_witness :
    check_risk_exit riskDemoState "600000" (85 / 10) = some ExitRule.stopLoss :=
  (claim2_risk_exit_priority riskDemoState "600000" (85 / 10)).1
    (by norm_num [riskDemoState, lookupD, lookupA])
    (by norm_num [riskDemoState])
    (by norm_num [riskDemoState, riskReturns, lookupD, lookupA])

/-- C10: `update_fill` clamps both reservation counters: a buy fill
releases at most the fill value from `locked_cash` and never drives it
negative; a sell fill releases at most the fill quantity from the symbol's
pending-sell count and never drives any pending count negative; each
direction leaves the other counter untouched. -/
theorem claim10_update_fill_clamps (st : PortfolioState) (event : FillEvent)
    (hl : 0 ≤ st.locked_cash) (hp : ∀ s, 0 ≤ st.pending_sells s) :
    0 ≤ (update_fill st event).locked_cash ∧
    (∀ s, 0 ≤ (update_fill st event).pending_sells s) ∧
    (event.direction = OrderDirection.buy →
        st.locked_cash - (event.quantity : ℚ) * event.fill_cost
          ≤ (update_fill st event).locked_cash) ∧
    (event.direction = OrderDirection.sell →
        st.pending_sells event.symbol - event.quantity
          ≤ (update_fill st event).pending_sells event.symbol) := by
  obtain ⟨fs, fq, fd, fc, fcm⟩ := event
  cases fd with
  | buy =>
      refine ⟨?_, ?_, ?_, ?_⟩
      · rw [update_fill_buy_locked]
        split_ifs with h
        · linarith
        · exact le_refl 0
      · intro s
        rw [update_fill_buy_pending]
        exact hp s
      · intro _
        rw [update_fill_buy_locked]
        dsimp only
        split_ifs with h
        · exact le_refl _
        · linarith
      · intro hd
        exact OrderDirection.noConfusion hd
  | sell =>
      refine ⟨?_, ?_, ?_, ?_⟩
      · rw [update_fill_sell_locked]
        exact hl
      · intro s
        rw [update_fill_sell_pending]
        dsimp only
        have h1 := hp s
        have h2 := hp fs
        split_ifs <;> omega
      · intro hd
        exact OrderDirection.noConfusion hd
      · intro _
        rw [update_fill_sell_pending]
        simp only [eq_self_iff_true, if_true]
        have h2 := hp fs
        split_ifs <;> omega

/-- C10 witness: a concrete sell fill leaves both counters non-negative. -/
theorem claim10_witness :
    0 ≤ (update_fill riskDemoState
          (FillEvent.mk "600000" 100 OrderDirection.sell 12 5)).locked_cash ∧
    0 ≤ (update_fill riskDemoState
          (FillEvent.mk "600000" 100 OrderDirection.sell 12 5)).pending_sells
            "600000" := by
  have h := claim10_update_fill_clamps riskDemoState
    (FillEvent.mk "600000" 100 OrderDirection.sell 12 5)
    (le_refl 0) (fun s => le_refl 0)
  exact ⟨h.1, h.2.1 "600000"⟩

/-! ## Account lifecycle lemmas -/

theorem account_buy_eq (a : Account) (code : String) (price : ℚ) (volume : ℤ) :
    a.buy code price volume =
      if volume ≤ 0 then (false, a)
      else if a.cash < price * (volume : ℚ) + price * (volume : ℚ) * a.commission_rate
      then (false, a)
      else
        (true,
          { a with
              positions :=
                match lookupA a.positions code with
                | some pos => insertA a.positions code (pos.on_buy volume price)
                | none => insertA (insertA a.positions code Position.fresh) code
                    (Position.fresh.on_buy volume price)
              cash := a.cash
                - (price * (volume : ℚ) + price * (volume : ℚ) * a.commission_rate) }) := by
  cases h : lookupA a.positions code <;>
    simp only [Account.buy, Account.get_position, h]

theorem account_sell_eq (a : Account) (code : String) (price : ℚ) (volume : ℤ) :
    a.sell code price volume =
      if volume ≤ 0 then (false, a)
      else
        match lookupA a.positions code with
        | none => (false, a)
        | some pos =>
            if pos.available_volume < volume then (false, a)
            else if (pos.on_sell volume price).total_volume = 0 then
              (true, { a with
                  positions := eraseA (insertA a.positions code
                      (pos.on_sell volume price)) code
                  cash := a.cash + (price * (volume : ℚ)
                      - price * (volume : ℚ) * a.commission_rate) })
            else
              (true, { a with
                  positions := insertA a.positions code (pos.on_sell volume price)
                  cash := a.cash + (price * (volume : ℚ)
                      - price * (volume : ℚ) * a.commission_rate) }) := rfl

theorem buy_preserves_positions (a : Account) (code c2 : String) (price : ℚ)
    (volume : ℤ) (hmem : lookupA a.positions c2 ≠ none) :
    lookupA (a.buy code price volume).2.positions c2 ≠ none := by
  rw [account_buy_eq]
  split_ifs with h1 h2
  · exact hmem
  · exact hmem
  · dsimp only
    cases h : lookupA a.positions code
    · exact lookupA_isSome_insertA _ _ _ _ (lookupA_isSome_insertA _ _ _ _ hmem)
    · exact lookupA_isSome_insertA _ _ _ _ hmem

/-- A concrete account holding one fully settled position, used by the C8
counterexample and witness. -/
def sellDemoAccount : Account :=
  { cash := 1000
    initial_cash := 1000
    positions := [("600000", Position.mk 100 100 10 0)]
    commission_rate := 2 / 10000
    total_value := 1000 }

/-- C8 counterexample: a successful `Account.sell` that exhausts the
position deletes the symbol's entry from the positions map, refuting
"never removed by any subsequent operation". -/
theorem claim8_position_removed_counterexample :
    (sellDemoAccount.sell "600000" 11 100).1 = true ∧
    lookupA (sellDemoAccount.sell "600000" 11 100).2.positions "600000" = none :=
  ⟨by decide, by decide⟩

/-- C8 (amended): a position entry, once present, survives every buy and
every settle; a successful sell removes the sold symbol's entry exactly
when the post-sell `total_volume` is 0, and keeps it otherwise. -/
theorem claim8_position_lifecycle_amended :
    (∀ (a : Account) (code c2 : String) (price : ℚ) (volume : ℤ),
        lookupA a.positions c2 ≠ none →
        lookupA (a.buy code price volume).2.positions c2 ≠ none) ∧
    (∀ (a : Account) (c2 : String),
        lookupA a.settle.positions c2 = (lookupA a.positions c2).map Position.settle) ∧
    (∀ (a : Account) (code : String) (price : ℚ) (volume : ℤ) (pos : Position),
        (a.positions.map Prod.fst).Nodup →
        lookupA a.positions code = some pos →
        (a.sell code price volume).1 = true →
        (lookupA (a.sell code price volume).2.positions code = none
          ↔ (pos.on_sell volume price).total_volume = 0)) := by
  refine ⟨buy_preserves_positions, ?_, ?_⟩
  · intro a c2
    exact lookupA_map_value a.positions Position.settle c2
  · intro a code price volume pos hnd hpos hsucc
    rw [account_sell_eq] at hsucc ⊢
    rw [hpos] at hsucc ⊢
    dsimp only at hsucc ⊢
    split_ifs at hsucc ⊢ with h1 h2 h3
    · simp only [lookupA_eraseA_insertA_self _ _ _ hnd, h3]
    · simp only [lookupA_insertA_self]
      simp [h3]

/-- C8 witness for the amended statements: the entry survives a buy of a
different symbol, and survives a partial sell that leaves shares. -/
theorem claim8_witness :
    lookupA (sellDemoAccount.buy "600519" 10 100).2.positions "600000" ≠ none ∧
    (lookupA (sellDemoAccount.sell "600000" 11 50).2.positions "600000" = none
      ↔ ((Position.mk 100 100 10 0).on_sell 50 11).total_volume = 0) := by
  constructor
  · exact claim8_position_lifecycle_amended.1 sellDemoAccount "600519" "600000"
      10 100 (by decide)
  · exact claim8_position_lifecycle_amended.2.2 sellDemoAccount "600000" 11 50
      (Position.mk 100 100 10 0) (by decide) (by decide) (by decide)

end MQ
